import Mathlib

/-!
Verification of the road-bike tire recommendation ranker (src/src/pages/Index.tsx)
and the webhook relay endpoint (the unnamed serverless handler file).

Numbers are modelled as exact rationals (ℚ); nullable database columns as
`Option`; the stable in-place JavaScript `Array.prototype.sort` with comparator
`(a, b) => b.score - a.score` as `List.insertionSort byScoreDesc` (a stable
sort; a stable sorted permutation under a total preorder is unique, so any
stable sort models it).
-/

namespace RoadBike

/-- Type `WetPreference` from Index.tsx: `"very" | "normal" | "not"`. -/
inductive WetPreference
  | very
  | normal
  | not
deriving DecidableEq, Repr

/-- Type `WidthPreference` from Index.tsx: `"28" | "wider"`. -/
inductive WidthPreference
  | w28
  | wider
deriving DecidableEq, Repr

/-- The `tires` table row (`Tables<"tires">`): the fields the ranking logic
reads. Nullable columns are `Option`. -/
structure Tire where
  id : String
  brand : String
  model : String
  width_spec_mm : Option Int
  wet_center : Option ℚ
  wet_edge : Option ℚ
  rr_high_w : Option ℚ
  price : Option ℚ
  source_site : Option String
deriving DecidableEq, Repr

/-- Interface `TireWithScore extends Tire` from Index.tsx. -/
structure TireWithScore extends Tire where
  score : ℚ
  wg : ℚ
  rr : ℚ
  explanation : String
deriving DecidableEq, Repr

/-- The weight pair `{ wg, rr }` of `WEIGHT_CONFIG`. -/
structure Weights where
  wg : ℚ
  rr : ℚ
deriving DecidableEq, Repr

/-- Table `WEIGHT_CONFIG` from Index.tsx. -/
def WEIGHT_CONFIG : WetPreference → Weights
  | .very => ⟨0.8, 0.2⟩
  | .normal => ⟨0.6, 0.4⟩
  | .not => ⟨0.35, 0.65⟩

/-- The score formula applied inside `handleGenerate`:
`score = wg * weights.wg + rrNorm * weights.rr`. -/
def scoreFormula (weights : Weights) (wg rrNorm : ℚ) : ℚ :=
  wg * weights.wg + rrNorm * weights.rr

/-- The eligibility filter of `handleGenerate`:
`t.wet_center != null && t.wet_edge != null && t.rr_high_w != null`. -/
def eligible (t : Tire) : Bool :=
  t.wet_center.isSome && t.wet_edge.isSome && t.rr_high_w.isSome

/-- One step of the scoring map in `handleGenerate`:
`wg = Math.min(wet_center!, wet_edge!)`, `rr = rr_high_w!`, `rrNorm = 30 - rr`,
`score = wg * weights.wg + rrNorm * weights.rr`, `{...t, score, wg, rr, explanation: ''}`.
The non-null assertions are modelled by `Option.getD 0`; the filter guarantees
the defaults are never taken. -/
def scoreTire (weights : Weights) (t : Tire) : TireWithScore :=
  let wg := min (t.wet_center.getD 0) (t.wet_edge.getD 0)
  let rr := t.rr_high_w.getD 0
  let rrNorm := 30 - rr
  { toTire := t, score := scoreFormula weights wg rrNorm, wg := wg, rr := rr,
    explanation := "" }

/-- Function `generateReason` from Index.tsx: the deterministic local fallback text. -/
def generateReason (tire : TireWithScore) (wetPref : WetPreference) : String :=
  let wgStrong : Bool := decide (75 ≤ tire.wg)
  let rrLow : Bool := decide (tire.rr ≤ 12)
  match wetPref with
  | .very =>
      if wgStrong then "湿地安全感优先，抓地力表现优异，适合多雨路况骑行"
      else "湿地性能在可接受范围，综合表现较好"
  | .not =>
      if rrLow then "效率与速度的最佳平衡，滚阻保持在低水平，适合竞速训练"
      else "综合性能均衡，滚阻与抓地力兼顾"
  | .normal =>
      if wgStrong && rrLow then "湿地安全感与效率兼顾，全能型选手，适合日常训练与长途"
      else if wgStrong then "湿地抓地出色，安全性更强，滚阻保持在可接受范围"
      else if rrLow then "滚阻表现优秀，骑行更省力，湿地性能在合理水平"
      else "综合性能均衡，湿地与效率表现稳定，适合日常通勤骑行"

/-- Line `const preferredWidths = widthPref === "28" ? [28] : [30, 32]`. -/
def preferredWidths : WidthPreference → List Int
  | .w28 => [28]
  | .wider => [30, 32]

/-- The partition predicate `preferredWidths.includes(t.width_spec_mm || 0)`:
a missing width behaves as `0`. -/
def isPreferredWidth (widthPref : WidthPreference) (t : Tire) : Bool :=
  (preferredWidths widthPref).contains (t.width_spec_mm.getD 0)

/-- The comparator `(a, b) => b.score - a.score`: `a` comes no later than `b`
iff `b.score ≤ a.score` (descending by score). -/
def byScoreDesc (a b : TireWithScore) : Prop :=
  b.score ≤ a.score

instance : DecidableRel byScoreDesc :=
  fun a b => inferInstanceAs (Decidable (b.score ≤ a.score))

/-- The `while (top3.length < 3)` merge loop of `handleGenerate`: take from
`preferred` while any remain, then from `others`, stopping at `n` items
(`n = 3` at the call site) or when both lists are exhausted. -/
def takeMerge : Nat → List TireWithScore → List TireWithScore → List TireWithScore
  | 0, _, _ => []
  | Nat.succ n, a :: p, o => a :: takeMerge n p o
  | Nat.succ n, [], a :: o => a :: takeMerge n [] o
  | Nat.succ _, [], [] => []

/-- The pure core of `handleGenerate` (Index.tsx lines 99–142): filter to
eligible rows, score with the weights for `wetPref`, partition by preferred
width, sort each part by score descending (stable), merge taking preferred
first, and truncate to 3. -/
def rank (candidates : List Tire) (wetPref : WetPreference)
    (widthPref : WidthPreference) : List TireWithScore :=
  let validTires := candidates.filter eligible
  let weights := WEIGHT_CONFIG wetPref
  let tiresWithScore := validTires.map (scoreTire weights)
  let preferred := tiresWithScore.filter (fun t => isPreferredWidth widthPref t.toTire)
  let others := tiresWithScore.filter (fun t => !isPreferredWidth widthPref t.toTire)
  let preferredSorted := List.insertionSort byScoreDesc preferred
  let othersSorted := List.insertionSort byScoreDesc others
  takeMerge 3 preferredSorted othersSorted

/-! ### Explanation lookup (Index.tsx lines 145–164)

`supabase.functions.invoke` resolves to `{ data, error }` (it reports provider
failures through the `error` field rather than by rejecting); the outcome of
one call is modelled as `InvokeOutcome`. -/

/-- Outcome of one `supabase.functions.invoke('explain_tires', ...)` call:
either `error` is set (`failure`) or `data.explanation` holds the text. -/
inductive InvokeOutcome
  | failure (err : String)
  | success (text : String)
deriving DecidableEq, Repr

/-- One element of the `top3.map(async (tire) => ...)` batch: if
`explanationError` is set, fall back to `generateReason(tire, wetPref)`;
otherwise use the provider text. -/
def explainOne (provider : TireWithScore → WetPreference → InvokeOutcome)
    (wetPref : WetPreference) (tire : TireWithScore) : TireWithScore :=
  match provider tire wetPref with
  | .failure _ => { tire with explanation := generateReason tire wetPref }
  | .success text => { tire with explanation := text }

/-- Semantics of `Promise.all`: resolves with all values when every element resolves, and
rejects with the first rejection otherwise. -/
def promiseAll {ε α : Type} : List (Except ε α) → Except ε (List α)
  | [] => .ok []
  | .error e :: _ => .error e
  | .ok a :: rest => (promiseAll rest).map (a :: ·)

/-- The whole `await Promise.all(top3.map(async (tire) => ...))` step: each
per-item task settles successfully because the per-item error check substitutes
the fallback instead of rethrowing. -/
def explainTop3 (provider : TireWithScore → WetPreference → InvokeOutcome)
    (wetPref : WetPreference) (top3 : List TireWithScore) :
    Except String (List TireWithScore) :=
  promiseAll (top3.map (fun tire => Except.ok (explainOne provider wetPref tire)))

/-! ### Webhook relay (the unnamed serverless handler file) -/

/-- The value found at `req.body?.text`: absent is modelled by `Option.none`
at the use site, a present value is a string or something else. -/
inductive TextVal
  | str (s : String)
  | nonString
deriving DecidableEq, Repr

/-- The parts of the request the handler reads. -/
structure RelayReq where
  method : String
  textField : Option TextVal
deriving DecidableEq, Repr

/-- The upstream `fetch` response as the handler consumes it:
`ok`, `status`, and the body text read on failure. -/
structure FetchResp where
  ok : Bool
  status : Nat
  bodyText : String
deriving DecidableEq, Repr

/-- Shape built by `buildPayload`: `{ msg_type: "text", content: { text } }`. -/
structure FeishuPayload where
  msg_type : String
  content_text : String
deriving DecidableEq, Repr

def buildPayload (text : String) : FeishuPayload :=
  ⟨"text", text⟩

/-- What the handler sends back, plus the payload it forwarded upstream
(`none` when no `fetch` was made). -/
structure RelayResult where
  status : Nat
  body : String
  sent : Option FeishuPayload
deriving DecidableEq, Repr

/-- JavaScript truthiness of `process.env.FEISHU_WEBHOOK`: an unset variable is
`undefined` (falsy) and an empty string is falsy. -/
def webhookTruthy : Option String → Bool
  | none => false
  | some w => w ≠ ""

/-- The relay `handler`: 405 for non-POST; 500 when `FEISHU_WEBHOOK` is falsy;
`text` is the body field when it is a string, else `null`; 400 when `!text`
(null or the empty string); otherwise forward `buildPayload(text)` and answer
200 "ok" on `response.ok`, else echo the upstream status and body text. -/
def handler (env : Option String) (upstream : FetchResp) (req : RelayReq) :
    RelayResult :=
  if req.method ≠ "POST" then ⟨405, "Method Not Allowed", none⟩
  else if ¬webhookTruthy env then ⟨500, "Missing FEISHU_WEBHOOK", none⟩
  else
    let text : Option String :=
      match req.textField with
      | some (.str s) => some s
      | _ => none
    match text with
    | none => ⟨400, "Invalid payload", none⟩
    | some s =>
      if s = "" then ⟨400, "Invalid payload", none⟩
      else if upstream.ok then ⟨200, "ok", some (buildPayload s)⟩
      else ⟨upstream.status, upstream.bodyText, some (buildPayload s)⟩

/-! ### Spec-side fallback table (for the refinement claim about `generateReason`) -/

/-- Tags for the eight rows of the spec §4.1 step 7 fallback table. -/
inductive ReasonTag
  | wetStrong
  | wetAcceptable
  | effLow
  | effBalanced
  | allAround
  | wetFocused
  | effFocused
  | dailyBalanced
deriving DecidableEq, Repr

/-- Modelled from the spec (§4.1 step 7): row selection of the fallback table,
evaluated top to bottom with first match winning. -/
def specReasonTag (wg rr : ℚ) : WetPreference → ReasonTag
  | .very => if 75 ≤ wg then .wetStrong else .wetAcceptable
  | .not => if rr ≤ 12 then .effLow else .effBalanced
  | .normal =>
      if 75 ≤ wg ∧ rr ≤ 12 then .allAround
      else if 75 ≤ wg then .wetFocused
      else if rr ≤ 12 then .effFocused
      else .dailyBalanced

/-- The concrete text `generateReason` emits for each table row. -/
def tagText : ReasonTag → String
  | .wetStrong => "湿地安全感优先，抓地力表现优异，适合多雨路况骑行"
  | .wetAcceptable => "湿地性能在可接受范围，综合表现较好"
  | .effLow => "效率与速度的最佳平衡，滚阻保持在低水平，适合竞速训练"
  | .effBalanced => "综合性能均衡，滚阻与抓地力兼顾"
  | .allAround => "湿地安全感与效率兼顾，全能型选手，适合日常训练与长途"
  | .wetFocused => "湿地抓地出色，安全性更强，滚阻保持在可接受范围"
  | .effFocused => "滚阻表现优秀，骑行更省力，湿地性能在合理水平"
  | .dailyBalanced => "综合性能均衡，湿地与效率表现稳定，适合日常通勤骑行"

/-! ### Helper lemmas -/

theorem takeMerge_eq_take :
    ∀ (n : Nat) (p o : List TireWithScore), takeMerge n p o = (p ++ o).take n
  | 0, _, _ => rfl
  | Nat.succ n, a :: p, o => by
      simp [takeMerge, takeMerge_eq_take n p o]
  | Nat.succ n, [], a :: o => by
      simp [takeMerge, takeMerge_eq_take n [] o]
  | Nat.succ _, [], [] => rfl

theorem rank_eq (candidates : List Tire) (wetPref : WetPreference)
    (widthPref : WidthPreference) :
    rank candidates wetPref widthPref =
      (List.insertionSort byScoreDesc
          (((candidates.filter eligible).map (scoreTire (WEIGHT_CONFIG wetPref))).filter
            (fun t => isPreferredWidth widthPref t.toTire)) ++
        List.insertionSort byScoreDesc
          (((candidates.filter eligible).map (scoreTire (WEIGHT_CONFIG wetPref))).filter
            (fun t => !isPreferredWidth widthPref t.toTire))).take 3 := by
  simp [rank, takeMerge_eq_take]

theorem scoreTire_toTire (weights : Weights) (t : Tire) :
    (scoreTire weights t).toTire = t :=
  rfl

theorem promiseAll_map_ok {ε α β : Type} (f : β → α) (l : List β) :
    promiseAll (l.map (fun b => (Except.ok (f b) : Except ε α))) = .ok (l.map f) := by
  induction l with
  | nil => rfl
  | cons a t ih => simp [promiseAll, ih, Except.map]

/-- Every element of a `rank` result comes from scoring an eligible candidate. -/
theorem mem_rank (candidates : List Tire) (wetPref : WetPreference)
    (widthPref : WidthPreference) (s : TireWithScore)
    (hs : s ∈ rank candidates wetPref widthPref) :
    ∃ t ∈ candidates, eligible t = true ∧ s = scoreTire (WEIGHT_CONFIG wetPref) t := by
  rw [rank_eq] at hs
  have hs2 := (List.take_sublist 3 _).mem hs
  rcases List.mem_append.mp hs2 with h | h
  · have hmem := (List.perm_insertionSort byScoreDesc _).subset h
    have hmem2 := List.mem_of_mem_filter hmem
    rcases List.mem_map.mp hmem2 with ⟨t, ht, rfl⟩
    exact ⟨t, List.mem_of_mem_filter ht, List.of_mem_filter ht, rfl⟩
  · have hmem := (List.perm_insertionSort byScoreDesc _).subset h
    have hmem2 := List.mem_of_mem_filter hmem
    rcases List.mem_map.mp hmem2 with ⟨t, ht, rfl⟩
    exact ⟨t, List.mem_of_mem_filter ht, List.of_mem_filter ht, rfl⟩

/-- The order the stable descending sort establishes, relative to a fetch-order
relation `Q`: strictly larger score first, ties resolved by `Q`. -/
def rankedBefore (Q : TireWithScore → TireWithScore → Prop)
    (x y : TireWithScore) : Prop :=
  y.score < x.score ∨ (y.score = x.score ∧ Q x y)

theorem pairwise_rankedBefore_orderedInsert
    (Q : TireWithScore → TireWithScore → Prop) (a : TireWithScore) :
    ∀ (l : List TireWithScore), (∀ b ∈ l, Q a b) →
      l.Pairwise (rankedBefore Q) →
      (l.orderedInsert byScoreDesc a).Pairwise (rankedBefore Q)
  | [], _, _ => List.pairwise_singleton _ _
  | b :: t, ha, hs => by
      rcases List.pairwise_cons.mp hs with ⟨hbt, ht⟩
      by_cases hab : byScoreDesc a b
      · rw [List.orderedInsert, if_pos hab]
        refine List.pairwise_cons.mpr ⟨?_, hs⟩
        intro c hc
        rcases List.mem_cons.mp hc with rfl | hct
        · rcases lt_or_eq_of_le hab with h | h
          · exact Or.inl h
          · exact Or.inr ⟨h, ha c (List.mem_cons_self c t)⟩
        · have hcb : c.score ≤ b.score := by
            rcases hbt c hct with h | h
            · exact le_of_lt h
            · exact le_of_eq h.1
          rcases lt_or_eq_of_le (le_trans hcb hab) with h | h
          · exact Or.inl h
          · exact Or.inr ⟨h, ha c (List.mem_cons_of_mem b hct)⟩
      · rw [List.orderedInsert, if_neg hab]
        have hba : b.score < a.score → False := fun h => hab (le_of_lt h)
        have hab2 : a.score < b.score := by
          rcases lt_trichotomy a.score b.score with h | h | h
          · exact h
          · exact absurd (le_of_eq h.symm) hab
          · exact absurd (le_of_lt h) hab
        refine List.pairwise_cons.mpr ⟨?_, ?_⟩
        · intro c hc
          rcases (List.mem_orderedInsert byScoreDesc).mp hc with rfl | hct
          · exact Or.inl hab2
          · exact hbt c hct
        · exact pairwise_rankedBefore_orderedInsert Q a t
            (fun c hc => ha c (List.mem_cons_of_mem b hc)) ht

/-- Stability plus sortedness of the descending insertion sort: if the input is
ordered by the fetch-order relation `Q`, the output is ordered by score
descending with ties left in `Q` order. -/
theorem pairwise_rankedBefore_insertionSort
    (Q : TireWithScore → TireWithScore → Prop) :
    ∀ (l : List TireWithScore), l.Pairwise Q →
      (List.insertionSort byScoreDesc l).Pairwise (rankedBefore Q)
  | [], _ => List.Pairwise.nil
  | a :: t, hl => by
      rcases List.pairwise_cons.mp hl with ⟨hat, ht⟩
      rw [List.insertionSort]
      exact pairwise_rankedBefore_orderedInsert Q a _
        (fun b hb => hat b ((List.perm_insertionSort byScoreDesc t).subset hb))
        (pairwise_rankedBefore_insertionSort Q t ht)

/-! ### Concrete tires (the spec §8 worked example; also used as witnesses) -/

def exTire1 : Tire := ⟨"item1", "", "", some 28, some 70, some 72, some 10, none, none⟩

def exTire2 : Tire := ⟨"item2", "", "", some 30, some 90, some 92, some 8, none, none⟩

def exTire3 : Tire := ⟨"item3", "", "", some 28, some 60, some 61, some 20, none, none⟩

def noWidthTire : Tire := ⟨"item4", "", "", none, some 50, some 55, some 15, none, none⟩

/-! ### Claims -/

/-- C1: for every eligible candidate (wet_center, wet_edge, rr_high_w all
non-null) and every wetPref, the ranker computes
score = min(wet_center, wet_edge) * wg_weight + (30 - rr_high_w) * rr_weight,
with (wg_weight, rr_weight) = (0.8, 0.2) for very, (0.6, 0.4) for normal, and
(0.35, 0.65) for not. -/
theorem C1_score_formula :
    (WEIGHT_CONFIG .very = ⟨0.8, 0.2⟩ ∧ WEIGHT_CONFIG .normal = ⟨0.6, 0.4⟩ ∧
      WEIGHT_CONFIG .not = ⟨0.35, 0.65⟩) ∧
    ∀ (t : Tire) (wc we rrv : ℚ) (wetPref : WetPreference),
      t.wet_center = some wc → t.wet_edge = some we → t.rr_high_w = some rrv →
      (scoreTire (WEIGHT_CONFIG wetPref) t).score =
        min wc we * (WEIGHT_CONFIG wetPref).wg +
          (30 - rrv) * (WEIGHT_CONFIG wetPref).rr := by
  refine ⟨⟨rfl, rfl, rfl⟩, ?_⟩
  intro t wc we rrv wetPref hc he hr
  simp [scoreTire, scoreFormula, hc, he, hr]

theorem C1_score_formula_witness :
    (scoreTire (WEIGHT_CONFIG .not) exTire1).score =
      min 70 72 * (WEIGHT_CONFIG .not).wg + (30 - 10) * (WEIGHT_CONFIG .not).rr :=
  C1_score_formula.2 exTire1 70 72 10 .not rfl rfl rfl

/-- C5: the fallback explanation is a pure deterministic function of
(wg, rr, wetPref), selected by the spec table evaluated top to bottom with
first match winning: very splits on wg ≥ 75; not splits on rr ≤ 12; normal
distinguishes, in order, (wg ≥ 75 and rr ≤ 12), (wg ≥ 75), (rr ≤ 12), else. -/
theorem C5_reason_table :
    ∀ (tire : TireWithScore) (wetPref : WetPreference),
      generateReason tire wetPref = tagText (specReasonTag tire.wg tire.rr wetPref) := by
  intro t wetPref
  cases wetPref <;>
    by_cases h1 : (75 : ℚ) ≤ t.wg <;> by_cases h2 : t.rr ≤ 12 <;>
      simp [generateReason, specReasonTag, tagText, h1, h2]

/-- C9: for any fixed weight pair from the table, the score function is
monotonically increasing in wg (holding rr_norm fixed) and in rr_norm
(holding wg fixed). -/
theorem C9_score_monotone :
    ∀ (wetPref : WetPreference) (a b c d r w : ℚ),
      (a ≤ b → scoreFormula (WEIGHT_CONFIG wetPref) a r ≤
        scoreFormula (WEIGHT_CONFIG wetPref) b r) ∧
      (c ≤ d → scoreFormula (WEIGHT_CONFIG wetPref) w c ≤
        scoreFormula (WEIGHT_CONFIG wetPref) w d) := by
  intro wetPref a b c d r w
  have hwg : 0 ≤ (WEIGHT_CONFIG wetPref).wg := by
    cases wetPref <;> norm_num [WEIGHT_CONFIG]
  have hrr : 0 ≤ (WEIGHT_CONFIG wetPref).rr := by
    cases wetPref <;> norm_num [WEIGHT_CONFIG]
  constructor
  · intro h
    simp only [scoreFormula]
    exact add_le_add_right (mul_le_mul_of_nonneg_right h hwg) _
  · intro h
    simp only [scoreFormula]
    exact add_le_add_left (mul_le_mul_of_nonneg_right h hrr) _

theorem C9_score_monotone_witness :
    scoreFormula (WEIGHT_CONFIG .normal) 1 5 ≤ scoreFormula (WEIGHT_CONFIG .normal) 2 5 ∧
    scoreFormula (WEIGHT_CONFIG .normal) 7 1 ≤ scoreFormula (WEIGHT_CONFIG .normal) 7 3 :=
  ⟨(C9_score_monotone .normal 1 2 1 3 5 7).1 (by norm_num),
   (C9_score_monotone .normal 1 2 1 3 5 7).2 (by norm_num)⟩

/-- C3: the explanation batch never fails as a whole — it resolves with one
entry per top-3 item — and an item whose provider call fails is the only one
that receives the deterministic local fallback; items whose call succeeds keep
the provider text. -/
theorem C3_explanation_isolated :
    ∀ (provider : TireWithScore → WetPreference → InvokeOutcome)
      (wetPref : WetPreference) (top3 : List TireWithScore),
      explainTop3 provider wetPref top3 =
        .ok (top3.map (explainOne provider wetPref)) ∧
      (∀ tire err, provider tire wetPref = .failure err →
        explainOne provider wetPref tire =
          { tire with explanation := generateReason tire wetPref }) ∧
      (∀ tire text, provider tire wetPref = .success text →
        explainOne provider wetPref tire = { tire with explanation := text }) := by
  intro provider wetPref top3
  refine ⟨promiseAll_map_ok _ _, ?_, ?_⟩ <;> intro tire x hx <;> simp [explainOne, hx]

theorem C3_explanation_isolated_witness :
    explainOne (fun _ _ => InvokeOutcome.failure "boom") WetPreference.normal
        (scoreTire (WEIGHT_CONFIG .normal) exTire1) =
      { scoreTire (WEIGHT_CONFIG .normal) exTire1 with
          explanation :=
            generateReason (scoreTire (WEIGHT_CONFIG .normal) exTire1) .normal } :=
  (C3_explanation_isolated (fun _ _ => .failure "boom") .normal []).2.1
    (scoreTire (WEIGHT_CONFIG .normal) exTire1) "boom" rfl

/-- C7: on the spec worked example (wetPref = not, widthPref = narrow), the
computed scores are 37.5, 45.8, 27.5 for item1, item2, item3 respectively, and
the result order is item1, item3, item2. -/
theorem C7_worked_example :
    (scoreTire (WEIGHT_CONFIG .not) exTire1).score = 37.5 ∧
    (scoreTire (WEIGHT_CONFIG .not) exTire2).score = 45.8 ∧
    (scoreTire (WEIGHT_CONFIG .not) exTire3).score = 27.5 ∧
    (rank [exTire1, exTire2, exTire3] .not .w28).map (fun s => (s.id, s.score)) =
      [("item1", 37.5), ("item3", 27.5), ("item2", 45.8)] := by
  refine ⟨?_, ?_, ?_, ?_⟩ <;>
    norm_num [rank_eq, eligible, exTire1, exTire2, exTire3, scoreTire, scoreFormula,
      WEIGHT_CONFIG, isPreferredWidth, preferredWidths, List.insertionSort,
      List.orderedInsert, byScoreDesc]

/-- C8 counterexample: a POST whose body has `text = ""` — the field is
present and is a string, the webhook is configured, and the upstream call would
succeed — yet the handler answers 400 "Invalid payload" and forwards nothing,
because `!text` in JavaScript is true for the empty string. The claim as
stated predicts a forwarded payload and a 200 "ok" answer here. -/
theorem C8_empty_text_counterexample :
    handler (some "https://hook.example") ⟨true, 200, "ignored"⟩
        ⟨"POST", some (.str "")⟩ =
      ⟨400, "Invalid payload", none⟩ ∧
    (400 : Nat) ≠ 200 := by
  refine ⟨?_, by decide⟩
  rfl

/-- C8 (amended): the relay handler returns 405 for any non-POST request; 500
when the webhook URL is unconfigured (unset or empty, JS falsiness); 400 when
the body's text field is missing, not a string, or the empty string; for
non-empty string text it forwards `{ msg_type: "text", content: { text } }`
and returns 200 "ok" when the upstream call succeeds, else the upstream status
and body text. -/
theorem C8_relay_behavior :
    ∀ (env : Option String) (upstream : FetchResp) (req : RelayReq),
      (req.method ≠ "POST" →
        handler env upstream req = ⟨405, "Method Not Allowed", none⟩) ∧
      (req.method = "POST" → webhookTruthy env = false →
        handler env upstream req = ⟨500, "Missing FEISHU_WEBHOOK", none⟩) ∧
      (req.method = "POST" → webhookTruthy env = true →
        (req.textField = none ∨ req.textField = some .nonString ∨
          req.textField = some (.str "")) →
        handler env upstream req = ⟨400, "Invalid payload", none⟩) ∧
      (∀ s, req.method = "POST" → webhookTruthy env = true →
        req.textField = some (.str s) → s ≠ "" → upstream.ok = true →
        handler env upstream req = ⟨200, "ok", some (buildPayload s)⟩) ∧
      (∀ s, req.method = "POST" → webhookTruthy env = true →
        req.textField = some (.str s) → s ≠ "" → upstream.ok = false →
        handler env upstream req =
          ⟨upstream.status, upstream.bodyText, some (buildPayload s)⟩) := by
  intro env upstream req
  refine ⟨?_, ?_, ?_, ?_, ?_⟩
  · intro h
    simp [handler, h]
  · intro hm hw
    simp [handler, hm, hw]
  · intro hm hw ht
    rcases ht with h | h | h <;> simp [handler, hm, hw, h]
  · intro s hm hw ht hs hok
    simp [handler, hm, hw, ht, hs, hok]
  · intro s hm hw ht hs hok
    simp [handler, hm, hw, ht, hs, hok]

theorem C8_relay_behavior_witness :
    handler (some "https://hook.example") ⟨true, 200, ""⟩
        ⟨"POST", some (.str "hello")⟩ =
      ⟨200, "ok", some (buildPayload "hello")⟩ :=
  (C8_relay_behavior (some "https://hook.example") ⟨true, 200, ""⟩
      ⟨"POST", some (.str "hello")⟩).2.2.2.1 "hello" rfl rfl rfl
    (by decide) rfl

/-- C4: for any candidate list, rank returns at most 3 items, and every
returned item is eligible (wet_center, wet_edge, rr_high_w all present);
ineligible candidates never appear in the result. -/
theorem C4_at_most_three_all_eligible :
    ∀ (candidates : List Tire) (wetPref : WetPreference) (widthPref : WidthPreference),
      (rank candidates wetPref widthPref).length ≤ 3 ∧
      ∀ s ∈ rank candidates wetPref widthPref, eligible s.toTire = true := by
  intro candidates wetPref widthPref
  constructor
  · rw [rank_eq]
    exact List.length_take_le 3 _
  · intro s hs
    rcases mem_rank _ _ _ s hs with ⟨t, _, ht, rfl⟩
    rw [scoreTire_toTire]
    exact ht

theorem C4_at_most_three_all_eligible_witness :
    (rank [exTire1] .not .w28).length ≤ 3 ∧
    eligible (scoreTire (WEIGHT_CONFIG .not) exTire1).toTire = true :=
  ⟨(C4_at_most_three_all_eligible [exTire1] .not .w28).1,
   (C4_at_most_three_all_eligible [exTire1] .not .w28).2 _ (by
      norm_num [rank_eq, eligible, exTire1, isPreferredWidth, preferredWidths,
        List.insertionSort, List.orderedInsert])⟩

/-- C2: scored candidates are partitioned by widthPref into preferred
(width_spec_mm in {28} for narrow, {30, 32} for wide; a missing width matches
neither set) and others, and in the returned list every preferred-width item
appears before every non-preferred item, regardless of score. -/
theorem C2_width_dominates_order :
    (preferredWidths .w28 = [28] ∧ preferredWidths .wider = [30, 32]) ∧
    (∀ (widthPref : WidthPreference) (t : Tire), t.width_spec_mm = none →
      isPreferredWidth widthPref t = false) ∧
    ∀ (candidates : List Tire) (wetPref : WetPreference) (widthPref : WidthPreference),
      (rank candidates wetPref widthPref).Pairwise
        (fun a b => isPreferredWidth widthPref b.toTire = true →
          isPreferredWidth widthPref a.toTire = true) := by
  refine ⟨⟨rfl, rfl⟩, ?_, ?_⟩
  · intro widthPref t h
    cases widthPref <;> simp [isPreferredWidth, preferredWidths, h]
  · intro candidates wetPref widthPref
    have hmemP : ∀ x ∈ List.insertionSort byScoreDesc
        (((candidates.filter eligible).map (scoreTire (WEIGHT_CONFIG wetPref))).filter
          (fun t => isPreferredWidth widthPref t.toTire)),
        isPreferredWidth widthPref x.toTire = true := fun x hx =>
      (List.mem_filter.mp ((List.perm_insertionSort byScoreDesc _).subset hx)).2
    have hmemO : ∀ x ∈ List.insertionSort byScoreDesc
        (((candidates.filter eligible).map (scoreTire (WEIGHT_CONFIG wetPref))).filter
          (fun t => !isPreferredWidth widthPref t.toTire)),
        isPreferredWidth widthPref x.toTire = false := by
      intro x hx
      have h := (List.mem_filter.mp ((List.perm_insertionSort byScoreDesc _).subset hx)).2
      simpa using h
    rw [rank_eq]
    refine List.Pairwise.sublist (List.take_sublist 3 _) ?_
    rw [List.pairwise_append]
    refine ⟨List.pairwise_of_forall_mem_list ?_,
      List.pairwise_of_forall_mem_list ?_, ?_⟩
    · intro a ha b _ _
      exact hmemP a ha
    · intro a _ b hb hpb
      rw [hmemO b hb] at hpb
      cases hpb
    · intro a _ b hb hpb
      rw [hmemO b hb] at hpb
      cases hpb

theorem C2_width_dominates_order_witness :
    isPreferredWidth .w28 noWidthTire = false ∧
    (rank [exTire1, exTire2, exTire3] .not .w28).Pairwise
      (fun a b => isPreferredWidth .w28 b.toTire = true →
        isPreferredWidth .w28 a.toTire = true) :=
  ⟨C2_width_dominates_order.2.1 .w28 noWidthTire rfl,
   C2_width_dominates_order.2.2 [exTire1, exTire2, exTire3] .not .w28⟩

/-- C10: the ranker returns exactly min(3, number of eligible candidates)
items, and when candidate ids are distinct no candidate appears more than once
in the result (the partition is disjoint and the merge advances indices). -/
theorem C10_exact_length_no_duplicates :
    ∀ (candidates : List Tire) (wetPref : WetPreference) (widthPref : WidthPreference),
      (rank candidates wetPref widthPref).length =
        min 3 (candidates.filter eligible).length ∧
      ((candidates.map Tire.id).Nodup →
        ((rank candidates wetPref widthPref).map (fun s => s.id)).Nodup) := by
  intro candidates wetPref widthPref
  have happ :
      List.Perm
        (List.insertionSort byScoreDesc
            (((candidates.filter eligible).map (scoreTire (WEIGHT_CONFIG wetPref))).filter
              (fun t => isPreferredWidth widthPref t.toTire)) ++
          List.insertionSort byScoreDesc
            (((candidates.filter eligible).map (scoreTire (WEIGHT_CONFIG wetPref))).filter
              (fun t => !isPreferredWidth widthPref t.toTire)))
        ((candidates.filter eligible).map (scoreTire (WEIGHT_CONFIG wetPref))) :=
    ((List.perm_insertionSort byScoreDesc _).append
        (List.perm_insertionSort byScoreDesc _)).trans
      (List.filter_append_perm _ _)
  constructor
  · rw [rank_eq, List.length_take, happ.length_eq, List.length_map]
  · intro h
    have hvalid : ((candidates.filter eligible).map Tire.id).Nodup :=
      h.sublist ((List.filter_sublist candidates).map Tire.id)
    have hids :
        (((candidates.filter eligible).map (scoreTire (WEIGHT_CONFIG wetPref))).map
          (fun s => s.id)).Nodup := by
      rw [List.map_map]
      exact hvalid
    have h2 := (happ.map (fun s => s.id)).nodup_iff.mpr hids
    rw [rank_eq]
    exact h2.sublist ((List.take_sublist 3 _).map _)

theorem C10_exact_length_no_duplicates_witness :
    (rank [exTire1, exTire2, exTire3] .not .w28).length =
      min 3 ([exTire1, exTire2, exTire3].filter eligible).length ∧
    ((rank [exTire1, exTire2, exTire3] .not .w28).map (fun s => s.id)).Nodup :=
  ⟨(C10_exact_length_no_duplicates [exTire1, exTire2, exTire3] .not .w28).1,
   (C10_exact_length_no_duplicates [exTire1, exTire2, exTire3] .not .w28).2
     (by decide)⟩

/-- C6: for two eligible candidates with identical width-preference membership,
the higher-scoring one is ranked earlier; when scores are equal the items keep
their original fetch order (stable sort). Fetch order is abstracted as any
relation `Q` holding pairwise along the fetched list (instantiate `Q a b` with
"`a` was fetched before `b`"): tied same-membership pairs in the result still
satisfy `Q`. -/
theorem C6_higher_score_first_stable :
    ∀ (Q : Tire → Tire → Prop) (candidates : List Tire) (wetPref : WetPreference)
      (widthPref : WidthPreference),
      candidates.Pairwise Q →
      (rank candidates wetPref widthPref).Pairwise
        (fun a b =>
          isPreferredWidth widthPref a.toTire = isPreferredWidth widthPref b.toTire →
          (b.score < a.score ∨ (b.score = a.score ∧ Q a.toTire b.toTire))) := by
  intro Q candidates wetPref widthPref hQ
  have hmap :
      (((candidates.filter eligible).map (scoreTire (WEIGHT_CONFIG wetPref))).Pairwise
        (fun a b : TireWithScore => Q a.toTire b.toTire)) :=
    List.pairwise_map.mpr (hQ.filter _)
  have hPs := pairwise_rankedBefore_insertionSort (fun a b => Q a.toTire b.toTire)
    (((candidates.filter eligible).map (scoreTire (WEIGHT_CONFIG wetPref))).filter
      (fun t => isPreferredWidth widthPref t.toTire)) (hmap.filter _)
  have hOs := pairwise_rankedBefore_insertionSort (fun a b => Q a.toTire b.toTire)
    (((candidates.filter eligible).map (scoreTire (WEIGHT_CONFIG wetPref))).filter
      (fun t => !isPreferredWidth widthPref t.toTire)) (hmap.filter _)
  have hmemP : ∀ x ∈ List.insertionSort byScoreDesc
      (((candidates.filter eligible).map (scoreTire (WEIGHT_CONFIG wetPref))).filter
        (fun t => isPreferredWidth widthPref t.toTire)),
      isPreferredWidth widthPref x.toTire = true := fun x hx =>
    (List.mem_filter.mp ((List.perm_insertionSort byScoreDesc _).subset hx)).2
  have hmemO : ∀ x ∈ List.insertionSort byScoreDesc
      (((candidates.filter eligible).map (scoreTire (WEIGHT_CONFIG wetPref))).filter
        (fun t => !isPreferredWidth widthPref t.toTire)),
      isPreferredWidth widthPref x.toTire = false := by
    intro x hx
    have h := (List.mem_filter.mp ((List.perm_insertionSort byScoreDesc _).subset hx)).2
    simpa using h
  rw [rank_eq]
  refine List.Pairwise.sublist (List.take_sublist 3 _) ?_
  rw [List.pairwise_append]
  refine ⟨hPs.imp ?_, hOs.imp ?_, ?_⟩
  · intro a b h _
    exact h
  · intro a b h _
    exact h
  · intro a ha b hb heq
    rw [hmemP a ha, hmemO b hb] at heq
    cases heq

theorem C6_higher_score_first_stable_witness :
    (rank [exTire1, exTire2, exTire3] .not .w28).Pairwise
      (fun a b =>
        isPreferredWidth .w28 a.toTire = isPreferredWidth .w28 b.toTire →
        (b.score < a.score ∨ (b.score = a.score ∧ a.id ≠ b.id))) :=
  C6_higher_score_first_stable (fun a b => a.id ≠ b.id)
    [exTire1, exTire2, exTire3] .not .w28 (by decide)

end RoadBike
